import Mathlib

/-!
Shallow embedding of the Terraform-script-generator workflow (src/app.py).

The program is a three-node LangGraph workflow over a shared `AgentState`
record: `research_node`, `code_gen_node` and `code_reviewer_node` each return
a partial state update that the graph merges into the current state, and
`route_after_review` decides after each review whether to loop back to code
generation or to stop.  The LLM completion client and the Tavily search
client are external collaborators; they are modelled by an `Oracle` record
supplying the structured query list, the search results per query, and the
text of each generation / review response.  The graph executor is modelled
by the `step` function on `Config` (current node, state, and the number of
generate / review calls made so far, used to index the oracle).
-/

/-- First occurrence search, the semantics of `re.search` for a pattern made
of a literal prefix and a non-greedy tail: returns the part strictly before
the first occurrence of `pat` and the part strictly after it. -/
def splitOnFirst (pat : List Char) : List Char → Option (List Char × List Char)
  | [] => if pat = [] then some ([], []) else none
  | c :: cs =>
    if pat.isPrefixOf (c :: cs) then some ([], List.drop pat.length (c :: cs))
    else (splitOnFirst pat cs).map (fun p => (c :: p.1, p.2))

/-- Python's substring test `needle in hay`. -/
def containsSub (needle hay : String) : Bool :=
  (splitOnFirst needle.data hay.data).isSome

/-- The literal opening delimiter matched by the regex, backticks-hcl-newline. -/
def OPEN_FENCE : String := "```hcl\n"

/-- The literal closing delimiter matched by the regex. -/
def CLOSE_FENCE : String := "```"

/-- The approval marker tested by `route_after_review`. -/
def APPROVAL : String := "The code is valid"

/-- langgraph's `END` sentinel. -/
def END_str : String := "__end__"

/-- `re.search(r'```hcl\n(.*?)```', code, re.DOTALL)` followed by
`match.group(1).strip()` on success and `code.strip()` on failure.
The leftmost match opens at the first occurrence of "```hcl\n" and, being
non-greedy, closes at the first subsequent "```"; if either is absent the
whole search fails (a later "```hcl\n" would itself provide a closing "```"
for the first opening, so first-opening-then-first-closing is exact). -/
def extractHcl (response : String) : String :=
  match splitOnFirst OPEN_FENCE.data response.data with
  | some (_, rest) =>
    match splitOnFirst CLOSE_FENCE.data rest with
    | some (mid, _) => (String.mk mid).trim
    | none => response.trim
  | none => response.trim

/-- Whether the regex of `code_gen_node` matches at all. -/
def hasHclFence (s : String) : Bool :=
  match splitOnFirst OPEN_FENCE.data s.data with
  | some (_, rest) => (splitOnFirst CLOSE_FENCE.data rest).isSome
  | none => false

/-- The `AgentState` TypedDict. -/
structure AgentState where
  task : String
  content : List String
  code : String
  critique : String
  revision_number : Nat
  max_revisions : Nat
deriving DecidableEq

/-- A partial state update as returned by a node: only the keys present in
the returned dict are overwritten when the graph merges it into the state. -/
structure StateUpdate where
  task : Option String := none
  content : Option (List String) := none
  code : Option String := none
  critique : Option String := none
  revision_number : Option Nat := none
  max_revisions : Option Nat := none
deriving DecidableEq

/-- Merge a node's partial update into the state (langgraph's default
last-value-wins channel semantics for a plain TypedDict). -/
def applyUpdate (st : AgentState) (u : StateUpdate) : AgentState :=
  { task := u.task.getD st.task
    content := u.content.getD st.content
    code := u.code.getD st.code
    critique := u.critique.getD st.critique
    revision_number := u.revision_number.getD st.revision_number
    max_revisions := u.max_revisions.getD st.max_revisions }

/-- The structured-output schema `class Queries(BaseModel): queries: List[str]`. -/
structure Queries where
  queries : List String
deriving DecidableEq

/-- External collaborators for one run: the structured decode produced by the
completion client in `research_node`, the search client (query and
`max_results` to snippet texts), and the free-text completions of the i-th
generate call and the i-th review call. -/
structure Oracle where
  structuredQueries : Queries
  search : String → Nat → List String
  genResponse : Nat → String
  reviewResponse : Nat → String

/-- `research_node`: appends, for each decoded query in order, every returned
snippet text to `content` (search is called with `max_results=2`), and
returns a `{"content": content}` update. -/
def research_node (o : Oracle) (st : AgentState) : StateUpdate :=
  let content := st.content
  let content := o.structuredQueries.queries.foldl (fun acc q => acc ++ o.search q 2) content
  { content := some content }

/-- The sequence of `tavily.search` invocations (query, max_results) that
`research_node` performs: one per decoded query, in order, each with
`max_results=2`. -/
def researchSearchCalls (o : Oracle) : List (String × Nat) :=
  o.structuredQueries.queries.map (fun q => (q, 2))

def CODE_GEN_P1 : String :=
  "You are an AWS Terraform expert.  \nGiven a user’s request and any supporting research, follow these steps:\n\n1. **Parse the Request**  \n   - List required AWS resources (VPC, subnets, IGW, route tables, security groups, EC2 instance, etc.).  \n   - Note special requirements (public vs. private, CIDR ranges, SSH/HTTP, key‑pair name, tags, etc.).\n\n2. **Define Variables**  \n   - Decide which values to parameterize (region, CIDR blocks, instance_type, key_name, etc.).  \n   - Sketch a `variables.tf` section with names, types, descriptions, and sensible defaults.\n\n3. **Select Data Sources**  \n   - Include lookups for latest AMIs or other AWS‑provided values.\n\n4. **Compose Resource Blocks**  \n   - Order logically:\n     1. VPC  \n     2. Internet Gateway  \n     3. Route Table & Association  \n     4. Subnets  \n     5. Security Groups  \n     6. EC2 Instances  \n   - Use clear resource names, tags, and explicit dependencies.\n\n5. **Define Outputs**  \n   - Expose useful values (public IP, instance_id, VPC ID, etc.).\n\n6. **Generate Final HCL**  \n   - Produce a single `main.tf` code block that includes:\n     - `provider`  \n     - `variables`  \n     - `data` (for AMI)  \n     - All `resource` blocks  \n     - `output` blocks  \n   - Ensure it’s production‑ready (best practices, clean naming).\n\n---\n\nUser request:  \n"

def CODE_GEN_P2 : String :=
  "\n\nResearch content:  \n"

def CODE_GEN_P3 : String :=
  "\n\n**Output only the Terraform code** inside one HCL code fence:\n\n```hcl\n# your generated Terraform configuration here\n```"

/-- `CODE_GEN_PROMPT.format(task=state['task'], content="\n\n".join(state['content'] or []))`:
the Generate template with the task and the double-newline-joined research
content substituted into its two slots. -/
def codeGenBasePrompt (st : AgentState) : String :=
  CODE_GEN_P1 ++ st.task ++ CODE_GEN_P2 ++ String.intercalate "\n\n" st.content ++ CODE_GEN_P3

/-- The full system prompt of `code_gen_node`: the formatted template, plus
the previous-critique instruction block when `critique` is non-empty
(Python string truthiness of `if critique:`). -/
def codeGenPrompt (st : AgentState) : String :=
  let prompt := codeGenBasePrompt st
  if st.critique = "" then prompt
  else prompt ++ "\n\nPrevious critique: " ++ st.critique ++ "\nPlease address the issues mentioned."

/-- `code_gen_node`: the completion response (an oracle value; the prompt
sent to it is `codeGenPrompt`) goes through the fence extraction, and the
node returns `{"code": ..., "revision_number": state.get("revision_number", 0) + 1}`. -/
def code_gen_node (response : String) (st : AgentState) : StateUpdate :=
  { code := some (extractHcl response)
    revision_number := some (st.revision_number + 1) }

/-- `code_reviewer_node`: returns `{"critique": response.content}`. -/
def code_reviewer_node (response : String) (_st : AgentState) : StateUpdate :=
  { critique := some response }

/-- `route_after_review`: END when the budget is exhausted
(`revision_number > max_revisions`) or the critique contains the approval
substring, otherwise loop to "code_gen". -/
def route_after_review (st : AgentState) : String :=
  if st.revision_number > st.max_revisions ∨ containsSub APPROVAL st.critique = true
  then END_str
  else "code_gen"

/-- The graph's nodes, plus the terminal pseudo-state reached through END. -/
inductive Node where
  | research
  | code_gen
  | code_reviewer
  | terminated
deriving DecidableEq

/-- One point of the run: the node about to execute, the merged state, and
how many generate / review calls have completed (indexing the oracle). -/
structure Config where
  node : Node
  state : AgentState
  genCount : Nat
  reviewCount : Nat
deriving DecidableEq

/-- One executor step: run the current node, merge its update, and follow
the graph's edges (`research → code_gen`, `code_gen → code_reviewer`,
conditional edges from `code_reviewer` through `route_after_review` with
mapping `{"code_gen": "code_gen", END: END}`). -/
def step (o : Oracle) (c : Config) : Config :=
  match c.node with
  | Node.research =>
    { c with node := Node.code_gen
             state := applyUpdate c.state (research_node o c.state) }
  | Node.code_gen =>
    { c with node := Node.code_reviewer
             state := applyUpdate c.state (code_gen_node (o.genResponse c.genCount) c.state)
             genCount := c.genCount + 1 }
  | Node.code_reviewer =>
    let st := applyUpdate c.state (code_reviewer_node (o.reviewResponse c.reviewCount) c.state)
    { c with node := if route_after_review st = END_str then Node.terminated else Node.code_gen
             state := st
             reviewCount := c.reviewCount + 1 }
  | Node.terminated => c

/-- The initial state built by the Streamlit handler (`max_revisions` is 3
there; it is kept as a parameter so the revision budget can be quantified). -/
def initialState (task : String) (mr : Nat) : AgentState :=
  { task := task
    content := []
    code := ""
    critique := ""
    revision_number := 0
    max_revisions := mr }

/-- A run starts at the graph's entry point `research`. -/
def initConfig (task : String) (mr : Nat) : Config :=
  { node := Node.research
    state := initialState task mr
    genCount := 0
    reviewCount := 0 }

/-- Modelled from the spec: the abstract state machine of section 4.4
(states Research / Generate / Review / Terminated; Research→Generate and
Generate→Review unconditional; Review→Terminated first when the budget is
exhausted, then when the just-produced critique contains the approval
substring, else Review→Generate).  Used to compare the executor's
transitions against the spec's machine. -/
def specTransition (o : Oracle) (c : Config) : Node :=
  match c.node with
  | Node.research => Node.code_gen
  | Node.code_gen => Node.code_reviewer
  | Node.code_reviewer =>
    if c.state.revision_number > c.state.max_revisions then Node.terminated
    else if containsSub APPROVAL (o.reviewResponse c.reviewCount) = true then Node.terminated
    else Node.code_gen
  | Node.terminated => Node.terminated

/-! ### First-occurrence search lemmas -/

lemma splitOnFirst_of_isPrefixOf (pat s : List Char) (h : pat.isPrefixOf s = true) :
    splitOnFirst pat s = some ([], s.drop pat.length) := by
  cases s with
  | nil =>
    cases pat with
    | nil => simp [splitOnFirst]
    | cons a as => simp [List.isPrefixOf] at h
  | cons c cs => simp [splitOnFirst, h]

lemma splitOnFirst_cons_of_ne (t : List Char) (c : Char) (hc : c ≠ '`') (cs : List Char) :
    splitOnFirst ('`' :: t) (c :: cs)
      = (splitOnFirst ('`' :: t) cs).map (fun p => (c :: p.1, p.2)) := by
  have h1 : ('`' == c) = false := beq_eq_false_iff_ne.mpr (Ne.symm hc)
  have hnp : ('`' :: t).isPrefixOf (c :: cs) = false := by
    show (('`' == c) && t.isPrefixOf cs) = false
    rw [h1, Bool.false_and]
  simp [splitOnFirst, hnp]

lemma splitOnFirst_append_left (t pre s : List Char)
    (hpre : ∀ c ∈ pre, c ≠ '`') (h : ('`' :: t).isPrefixOf s = true) :
    splitOnFirst ('`' :: t) (pre ++ s) = some (pre, s.drop ('`' :: t).length) := by
  induction pre with
  | nil => simpa using splitOnFirst_of_isPrefixOf _ s h
  | cons d pre ih =>
    have hd : d ≠ '`' := hpre d (by simp)
    rw [List.cons_append, splitOnFirst_cons_of_ne t d hd,
        ih (fun c hc => hpre c (by simp [hc]))]
    rfl

lemma isPrefixOf_self_append (p r : List Char) : p.isPrefixOf (p ++ r) = true :=
  List.isPrefixOf_iff_prefix.mpr (List.prefix_append p r)

lemma splitOnFirst_open_fence (pre r : List Char) (hpre : ∀ c ∈ pre, c ≠ '`') :
    splitOnFirst OPEN_FENCE.data (pre ++ (OPEN_FENCE.data ++ r)) = some (pre, r) := by
  have h := splitOnFirst_append_left ('`' :: '`' :: 'h' :: 'c' :: 'l' :: '\n' :: [])
    pre (OPEN_FENCE.data ++ r) hpre (isPrefixOf_self_append _ r)
  simpa [OPEN_FENCE] using h

lemma splitOnFirst_close_fence (mid r : List Char) (hmid : ∀ c ∈ mid, c ≠ '`') :
    splitOnFirst CLOSE_FENCE.data (mid ++ (CLOSE_FENCE.data ++ r)) = some (mid, r) := by
  have h := splitOnFirst_append_left ('`' :: '`' :: [])
    mid (CLOSE_FENCE.data ++ r) hmid (isPrefixOf_self_append _ r)
  simpa [CLOSE_FENCE] using h

lemma extractHcl_fence (pre mid post : List Char)
    (h1 : ∀ c ∈ pre, c ≠ '`') (h2 : ∀ c ∈ mid, c ≠ '`') :
    extractHcl (String.mk (pre ++ (OPEN_FENCE.data ++ (mid ++ (CLOSE_FENCE.data ++ post)))))
      = (String.mk mid).trim := by
  have e1 : splitOnFirst OPEN_FENCE.data
      (pre ++ (OPEN_FENCE.data ++ (mid ++ (CLOSE_FENCE.data ++ post))))
      = some (pre, mid ++ (CLOSE_FENCE.data ++ post)) :=
    splitOnFirst_open_fence pre _ h1
  have e2 : splitOnFirst CLOSE_FENCE.data (mid ++ (CLOSE_FENCE.data ++ post))
      = some (mid, post) :=
    splitOnFirst_close_fence mid post h2
  unfold extractHcl
  rw [show (String.mk (pre ++ (OPEN_FENCE.data ++ (mid ++ (CLOSE_FENCE.data ++ post))))).data
        = pre ++ (OPEN_FENCE.data ++ (mid ++ (CLOSE_FENCE.data ++ post))) from rfl]
  simp only [e1, e2]

lemma extractHcl_fallback (s : String) (hs : hasHclFence s = false) :
    extractHcl s = s.trim := by
  cases e1 : splitOnFirst OPEN_FENCE.data s.data with
  | none => simp only [extractHcl, e1]
  | some p =>
    obtain ⟨a, rest⟩ := p
    simp only [hasHclFence, e1] at hs
    cases e2 : splitOnFirst CLOSE_FENCE.data rest with
    | none => simp only [extractHcl, e1, e2]
    | some q => rw [e2] at hs; simp at hs

lemma splitOnFirst_eq_none_of_not_containsSub (needle hay : String)
    (h : containsSub needle hay = false) : splitOnFirst needle.data hay.data = none := by
  unfold containsSub at h
  cases e : splitOnFirst needle.data hay.data with
  | none => rfl
  | some p => rw [e] at h; simp at h

/-! ### Claim C2: approval substring forces termination -/

lemma route_approved (st : AgentState) (h : containsSub APPROVAL st.critique = true) :
    route_after_review st = END_str := by
  unfold route_after_review
  rw [if_pos (Or.inr h)]

/-- C2: for every state whose critique contains the exact case-sensitive
substring "The code is valid", `route_after_review` returns END, regardless
of how much revision budget remains. -/
theorem spec_C2 (st : AgentState) (h : containsSub APPROVAL st.critique = true) :
    route_after_review st = END_str :=
  route_approved st h

def stateC2 : AgentState :=
  { task := "Create an S3 bucket"
    content := []
    code := "resource aws_s3_bucket b"
    critique := "The code is valid."
    revision_number := 1
    max_revisions := 3 }

theorem spec_C2_witness :
    containsSub APPROVAL stateC2.critique = true
    ∧ stateC2.revision_number ≤ stateC2.max_revisions
    ∧ route_after_review stateC2 = END_str :=
  ⟨by decide, by decide, spec_C2 stateC2 (by decide)⟩

/-! ### Claim C3: fence round-trip and lenient fallback -/

/-- C3: a Generate response containing a fenced `hcl` block yields a `code`
field equal to the fence's trimmed interior byte-for-byte (the backtick-free
side conditions pin down the matched fence), and a response with no matching
fence yields the entire trimmed response — extraction never fails solely due
to missing fencing. -/
theorem spec_C3 (st st2 : AgentState) (pre mid post : List Char) (s : String)
    (h1 : ∀ c ∈ pre, c ≠ '`') (h2 : ∀ c ∈ mid, c ≠ '`')
    (hs : hasHclFence s = false) :
    (applyUpdate st (code_gen_node
        (String.mk (pre ++ (OPEN_FENCE.data ++ (mid ++ (CLOSE_FENCE.data ++ post))))) st)).code
      = (String.mk mid).trim
    ∧ (applyUpdate st2 (code_gen_node s st2)).code = s.trim := by
  constructor
  · show extractHcl (String.mk (pre ++ (OPEN_FENCE.data ++ (mid ++ (CLOSE_FENCE.data ++ post)))))
      = (String.mk mid).trim
    exact extractHcl_fence pre mid post h1 h2
  · show extractHcl s = s.trim
    exact extractHcl_fallback s hs

theorem spec_C3_witness :
    (∀ c ∈ "Here is the config:\n".data, c ≠ '`')
    ∧ (∀ c ∈ "\nresource aws_instance web\n".data, c ≠ '`')
    ∧ hasHclFence "provider aws alone" = false
    ∧ (applyUpdate (initialState "t" 3) (code_gen_node
        (String.mk ("Here is the config:\n".data ++ (OPEN_FENCE.data
          ++ ("\nresource aws_instance web\n".data ++ (CLOSE_FENCE.data ++ "\nDone.".data)))))
        (initialState "t" 3))).code
      = (String.mk "\nresource aws_instance web\n".data).trim
    ∧ (applyUpdate (initialState "t" 3) (code_gen_node "provider aws alone"
        (initialState "t" 3))).code = ("provider aws alone" : String).trim :=
  ⟨by decide, by decide, by decide,
   (spec_C3 (initialState "t" 3) (initialState "t" 3)
      "Here is the config:\n".data "\nresource aws_instance web\n".data "\nDone.".data
      "provider aws alone" (by decide) (by decide) (by decide)).1,
   (spec_C3 (initialState "t" 3) (initialState "t" 3)
      "Here is the config:\n".data "\nresource aws_instance web\n".data "\nDone.".data
      "provider aws alone" (by decide) (by decide) (by decide)).2⟩

/-! ### Claim C9: newline-anchored opening and first-block-only matching -/

/-- C9: the extraction only matches a block opening with the literal
"```hcl" immediately followed by a newline; with two such fenced blocks it
keeps only the first (non-greedy) interior, and a response containing
"```hcl" but never "```hcl\n" (e.g. an inline single-line fence) takes the
fallback path and yields the whole trimmed response. -/
theorem spec_C9 (pre mid1 mid2 post : List Char) (u : String)
    (h1 : ∀ c ∈ pre, c ≠ '`') (h2 : ∀ c ∈ mid1, c ≠ '`')
    (_hu1 : containsSub "```hcl" u = true)
    (hu2 : containsSub OPEN_FENCE u = false) :
    extractHcl (String.mk (pre ++ (OPEN_FENCE.data ++ (mid1 ++ (CLOSE_FENCE.data
        ++ (OPEN_FENCE.data ++ (mid2 ++ (CLOSE_FENCE.data ++ post))))))))
      = (String.mk mid1).trim
    ∧ extractHcl u = u.trim := by
  constructor
  · exact extractHcl_fence pre mid1
      (OPEN_FENCE.data ++ (mid2 ++ (CLOSE_FENCE.data ++ post))) h1 h2
  · apply extractHcl_fallback
    unfold hasHclFence
    rw [splitOnFirst_eq_none_of_not_containsSub OPEN_FENCE u hu2]

theorem spec_C9_witness :
    (∀ c ∈ "Intro\n".data, c ≠ '`')
    ∧ (∀ c ∈ "\nalpha\n".data, c ≠ '`')
    ∧ containsSub "```hcl" "```hcl inline```" = true
    ∧ containsSub OPEN_FENCE "```hcl inline```" = false
    ∧ extractHcl (String.mk ("Intro\n".data ++ (OPEN_FENCE.data ++ ("\nalpha\n".data
        ++ (CLOSE_FENCE.data ++ (OPEN_FENCE.data ++ ("\nbeta\n".data
          ++ (CLOSE_FENCE.data ++ "\ntail".data))))))))
      = (String.mk "\nalpha\n".data).trim
    ∧ extractHcl "```hcl inline```" = ("```hcl inline```" : String).trim :=
  ⟨by decide, by decide, by decide, by decide,
   (spec_C9 "Intro\n".data "\nalpha\n".data "\nbeta\n".data "\ntail".data
      "```hcl inline```" (by decide) (by decide) (by decide) (by decide)).1,
   (spec_C9 "Intro\n".data "\nalpha\n".data "\nbeta\n".data "\ntail".data
      "```hcl inline```" (by decide) (by decide) (by decide) (by decide)).2⟩

/-! ### Claim C7: critique block appended iff critique non-empty -/

/-- C7: the Generate prompt equals the formatted template with task and
joined content substituted exactly when the critique is empty; when the
critique is non-empty the prompt is that template with the instruction block
quoting the previous critique verbatim appended. -/
theorem spec_C7 (st : AgentState) :
    (codeGenPrompt st = codeGenBasePrompt st ↔ st.critique = "")
    ∧ (st.critique ≠ "" → codeGenPrompt st = codeGenBasePrompt st
        ++ "\n\nPrevious critique: " ++ st.critique
        ++ "\nPlease address the issues mentioned.") := by
  by_cases h : st.critique = ""
  · refine ⟨⟨fun _ => h, fun _ => by simp [codeGenPrompt, h]⟩, fun hne => absurd h hne⟩
  · have happ : codeGenPrompt st = codeGenBasePrompt st
        ++ "\n\nPrevious critique: " ++ st.critique
        ++ "\nPlease address the issues mentioned." := by
      simp [codeGenPrompt, h]
    refine ⟨⟨fun heq => ?_, fun hc => absurd hc h⟩, fun _ => happ⟩
    exfalso
    rw [happ] at heq
    have hlen := congrArg String.length heq
    rw [String.length_append, String.length_append, String.length_append] at hlen
    have hx : 0 < ("\n\nPrevious critique: " : String).length := by decide
    omega

def stateC7 : AgentState :=
  { task := "Create an EC2 instance"
    content := ["doc one", "doc two"]
    code := "resource aws_instance web"
    critique := "Add tags to all resources."
    revision_number := 1
    max_revisions := 3 }

theorem spec_C7_witness :
    stateC7.critique ≠ ""
    ∧ codeGenPrompt stateC7 = codeGenBasePrompt stateC7
        ++ "\n\nPrevious critique: " ++ stateC7.critique
        ++ "\nPlease address the issues mentioned." :=
  ⟨by decide, (spec_C7 stateC7).2 (by decide)⟩

/-! ### Claims C5, C8, C10: the Research step -/

lemma foldl_search_decompose (o : Oracle) (qs : List String) (acc : List String) :
    ∃ t, qs.foldl (fun a q => a ++ o.search q 2) acc = acc ++ t := by
  induction qs generalizing acc with
  | nil => exact ⟨[], by simp⟩
  | cons q qs ih =>
    obtain ⟨t, ht⟩ := ih (acc ++ o.search q 2)
    exact ⟨o.search q 2 ++ t, by simp [List.foldl_cons, ht]⟩

lemma foldl_search_length (o : Oracle) (h2 : ∀ q, (o.search q 2).length ≤ 2)
    (qs : List String) (acc : List String) :
    (qs.foldl (fun a q => a ++ o.search q 2) acc).length ≤ acc.length + 2 * qs.length := by
  induction qs generalizing acc with
  | nil => simp
  | cons q qs ih =>
    have := ih (acc ++ o.search q 2)
    have hq := h2 q
    simp only [List.foldl_cons, List.length_cons, List.length_append] at *
    omega

/-- C5: under the search-provider contract (each call returns at most the
requested `max_results = 2` snippets) and with at most three decoded
queries, one Research call keeps every existing `content` entry, only
appends, and adds at most 3 × 2 = 6 new entries. -/
theorem spec_C5 (o : Oracle) (st : AgentState)
    (h3 : o.structuredQueries.queries.length ≤ 3)
    (h2 : ∀ q, (o.search q 2).length ≤ 2) :
    (∃ t, (applyUpdate st (research_node o st)).content = st.content ++ t)
    ∧ (applyUpdate st (research_node o st)).content.length ≤ st.content.length + 6
    ∧ st.content.length ≤ (applyUpdate st (research_node o st)).content.length := by
  have hcontent : (applyUpdate st (research_node o st)).content
      = o.structuredQueries.queries.foldl (fun a q => a ++ o.search q 2) st.content := rfl
  refine ⟨?_, ?_, ?_⟩
  · rw [hcontent]; exact foldl_search_decompose o _ st.content
  · rw [hcontent]
    have := foldl_search_length o h2 o.structuredQueries.queries st.content
    omega
  · obtain ⟨t, ht⟩ := foldl_search_decompose o o.structuredQueries.queries st.content
    rw [hcontent, ht]
    simp

def oracleC5 : Oracle :=
  { structuredQueries := { queries := ["Terraform VPC guide", "Terraform EC2 guide", "Terraform IAM guide"] }
    search := fun _ _ => ["snippet one", "snippet two"]
    genResponse := fun _ => ""
    reviewResponse := fun _ => "" }

theorem spec_C5_witness :
    oracleC5.structuredQueries.queries.length ≤ 3
    ∧ (∀ q, (oracleC5.search q 2).length ≤ 2)
    ∧ (applyUpdate (initialState "t" 3) (research_node oracleC5 (initialState "t" 3))).content.length
        ≤ (initialState "t" 3).content.length + 6 :=
  ⟨by decide, fun q => Nat.le_refl 2,
   (spec_C5 oracleC5 (initialState "t" 3) (by decide) (fun q => Nat.le_refl 2)).2.1⟩

/-- C8: the partial update produced by the Research step sets only the
`content` key, and merging it leaves `task`, `code`, `critique`,
`revision_number` and `max_revisions` unchanged. -/
theorem spec_C8 (o : Oracle) (st : AgentState) :
    (research_node o st).task = none
    ∧ (research_node o st).code = none
    ∧ (research_node o st).critique = none
    ∧ (research_node o st).revision_number = none
    ∧ (research_node o st).max_revisions = none
    ∧ (applyUpdate st (research_node o st)).task = st.task
    ∧ (applyUpdate st (research_node o st)).code = st.code
    ∧ (applyUpdate st (research_node o st)).critique = st.critique
    ∧ (applyUpdate st (research_node o st)).revision_number = st.revision_number
    ∧ (applyUpdate st (research_node o st)).max_revisions = st.max_revisions :=
  ⟨rfl, rfl, rfl, rfl, rfl, rfl, rfl, rfl, rfl, rfl⟩

/-- C10: when the structured decode yields an empty query list, Research
performs zero search-client calls and leaves `content` exactly unchanged. -/
theorem spec_C10 (o : Oracle) (st : AgentState)
    (h : o.structuredQueries.queries = []) :
    researchSearchCalls o = []
    ∧ (applyUpdate st (research_node o st)).content = st.content := by
  constructor
  · unfold researchSearchCalls
    rw [h]
    rfl
  · show o.structuredQueries.queries.foldl (fun a q => a ++ o.search q 2) st.content = st.content
    rw [h]
    rfl

def oracleC10 : Oracle :=
  { structuredQueries := { queries := [] }
    search := fun _ _ => ["snippet one", "snippet two"]
    genResponse := fun _ => ""
    reviewResponse := fun _ => "" }

def stateC10 : AgentState :=
  { task := "Create an S3 bucket"
    content := ["existing snippet"]
    code := ""
    critique := ""
    revision_number := 0
    max_revisions := 3 }

theorem spec_C10_witness :
    oracleC10.structuredQueries.queries = []
    ∧ researchSearchCalls oracleC10 = []
    ∧ (applyUpdate stateC10 (research_node oracleC10 stateC10)).content = ["existing snippet"] :=
  ⟨by decide, (spec_C10 oracleC10 stateC10 (by decide)).1,
   (spec_C10 oracleC10 stateC10 (by decide)).2⟩

/-! ### Executor step lemmas -/

lemma step_of_research (o : Oracle) (c : Config) (h : c.node = Node.research) :
    step o c = { node := Node.code_gen
                 state := applyUpdate c.state (research_node o c.state)
                 genCount := c.genCount
                 reviewCount := c.reviewCount } := by
  unfold step
  rw [h]

lemma step_of_code_gen (o : Oracle) (c : Config) (h : c.node = Node.code_gen) :
    step o c = { node := Node.code_reviewer
                 state := { c.state with code := extractHcl (o.genResponse c.genCount)
                                         revision_number := c.state.revision_number + 1 }
                 genCount := c.genCount + 1
                 reviewCount := c.reviewCount } := by
  unfold step
  rw [h]
  rfl

lemma step_of_code_reviewer (o : Oracle) (c : Config) (h : c.node = Node.code_reviewer) :
    step o c = { node := if route_after_review
                    { c.state with critique := o.reviewResponse c.reviewCount } = END_str
                  then Node.terminated else Node.code_gen
                 state := { c.state with critique := o.reviewResponse c.reviewCount }
                 genCount := c.genCount
                 reviewCount := c.reviewCount + 1 } := by
  unfold step
  rw [h]
  rfl

lemma step_of_terminated (o : Oracle) (c : Config) (h : c.node = Node.terminated) :
    step o c = c := by
  unfold step
  rw [h]

lemma route_loop (st : AgentState) (h1 : ¬ st.revision_number > st.max_revisions)
    (h2 : containsSub APPROVAL st.critique = false) :
    route_after_review st = "code_gen" := by
  unfold route_after_review
  rw [if_neg]
  rintro (hc | hc)
  · exact h1 hc
  · rw [h2] at hc
    exact Bool.false_ne_true hc

lemma route_budget (st : AgentState) (h1 : st.revision_number > st.max_revisions) :
    route_after_review st = END_str := by
  unfold route_after_review
  rw [if_pos (Or.inl h1)]

lemma code_gen_ne_end : ("code_gen" : String) ≠ END_str := by decide

lemma step_rev_gen (o : Oracle) (c : Config) :
    (step o c).state.revision_number
      = c.state.revision_number + (if c.node = Node.code_gen then 1 else 0)
    ∧ (step o c).genCount = c.genCount + (if c.node = Node.code_gen then 1 else 0) := by
  obtain ⟨n, st, g, r⟩ := c
  cases n with
  | research => exact ⟨rfl, rfl⟩
  | code_gen => exact ⟨rfl, rfl⟩
  | code_reviewer => exact ⟨rfl, rfl⟩
  | terminated => exact ⟨rfl, rfl⟩

lemma genCount_step_le (o : Oracle) (c : Config) :
    c.genCount ≤ (step o c).genCount ∧ (step o c).genCount ≤ c.genCount + 1 := by
  rw [(step_rev_gen o c).2]
  split <;> omega

lemma genCount_iterate_mono (o : Oracle) (x : Config) (a b : Nat) (h : a ≤ b) :
    ((step o)^[a] x).genCount ≤ ((step o)^[b] x).genCount := by
  induction b, h using Nat.le_induction with
  | base => exact Nat.le_refl _
  | succ b hb ih =>
    refine Nat.le_trans ih ?_
    rw [Function.iterate_succ_apply']
    exact (genCount_step_le o _).1

/-! ### Claim C4: revision_number bookkeeping -/

/-- C4: `revision_number` starts at 0, changes by exactly 1 on a Generate
step and by 0 on every other step (so it is never decremented), and after
any number of executor steps it equals the number of completed Generate
calls, however many Review steps happened in between. -/
theorem spec_C4 (o : Oracle) (task : String) (mr n : Nat) (c : Config) :
    (initConfig task mr).state.revision_number = 0
    ∧ (step o c).state.revision_number
        = c.state.revision_number + (if c.node = Node.code_gen then 1 else 0)
    ∧ ((step o)^[n] (initConfig task mr)).state.revision_number
        = ((step o)^[n] (initConfig task mr)).genCount := by
  refine ⟨rfl, (step_rev_gen o c).1, ?_⟩
  induction n with
  | zero => rfl
  | succ n ih =>
    rw [Function.iterate_succ_apply', (step_rev_gen o _).1, (step_rev_gen o _).2, ih]

/-! ### Claim C6: the fixed state machine -/

/-- C6: a run starts at Research; every executor step follows the spec's
state machine (Research→Generate, Generate→Review, Review→Generate or
Terminated exactly as the ordered routing decision table dictates,
Terminated absorbing); and after at least one step the current node is never
Research again, so Research executes exactly once, as the initial step. -/
theorem spec_C6 (o : Oracle) (task : String) (mr n : Nat) (c : Config) :
    (initConfig task mr).node = Node.research
    ∧ (step o c).node = specTransition o c
    ∧ ((step o)^[n+1] (initConfig task mr)).node
        ∈ [Node.code_gen, Node.code_reviewer, Node.terminated] := by
  refine ⟨rfl, ?_, ?_⟩
  · obtain ⟨nd, st, g, r⟩ := c
    cases nd with
    | research => rfl
    | code_gen => rfl
    | code_reviewer =>
      by_cases h1 : st.revision_number > st.max_revisions
      · rw [step_of_code_reviewer o _ rfl]
        show (if route_after_review _ = END_str then Node.terminated else Node.code_gen) = _
        rw [route_budget _ (by exact h1), if_pos rfl]
        unfold specTransition
        rw [if_pos h1]
      · by_cases hc : containsSub APPROVAL (o.reviewResponse r) = true
        · rw [step_of_code_reviewer o _ rfl]
          show (if route_after_review _ = END_str then Node.terminated else Node.code_gen) = _
          rw [route_approved _ (by exact hc), if_pos rfl]
          unfold specTransition
          rw [if_neg h1, if_pos hc]
        · rw [step_of_code_reviewer o _ rfl]
          show (if route_after_review _ = END_str then Node.terminated else Node.code_gen) = _
          rw [route_loop _ (by exact h1) (by exact Bool.of_not_eq_true hc),
              if_neg code_gen_ne_end]
          unfold specTransition
          rw [if_neg h1, if_neg hc]
    | terminated => rfl
  · rw [Function.iterate_succ_apply']
    obtain ⟨nd, st, g, r⟩ : Config := (step o)^[n] (initConfig task mr)
    cases nd with
    | research => simp [step]
    | code_gen => simp [step]
    | code_reviewer =>
      unfold step
      dsimp only
      split <;> simp
    | terminated => simp [step]

/-! ### Claim C1: budget-exhaustion termination -/

lemma cycle_step (o : Oracle) (c : Config) (hnode : c.node = Node.code_gen)
    (hbudget : c.state.revision_number + 1 ≤ c.state.max_revisions)
    (hno : containsSub APPROVAL (o.reviewResponse c.reviewCount) = false) :
    (step o (step o c)).node = Node.code_gen
    ∧ (step o (step o c)).genCount = c.genCount + 1
    ∧ (step o (step o c)).reviewCount = c.reviewCount + 1
    ∧ (step o (step o c)).state.revision_number = c.state.revision_number + 1
    ∧ (step o (step o c)).state.max_revisions = c.state.max_revisions := by
  rw [step_of_code_gen o c hnode, step_of_code_reviewer o _ rfl]
  rw [route_loop _ (by exact Nat.not_lt.mpr hbudget) (by exact hno), if_neg code_gen_ne_end]
  exact ⟨rfl, rfl, rfl, rfl, rfl⟩

lemma final_step (o : Oracle) (c : Config) (hnode : c.node = Node.code_gen)
    (hbudget : c.state.max_revisions < c.state.revision_number + 1) :
    (step o (step o c)).node = Node.terminated
    ∧ (step o (step o c)).genCount = c.genCount + 1
    ∧ (step o (step o c)).state.revision_number = c.state.revision_number + 1
    ∧ (step o (step o c)).state.max_revisions = c.state.max_revisions
    ∧ (step o (step o c)).state.critique = o.reviewResponse c.reviewCount := by
  rw [step_of_code_gen o c hnode, step_of_code_reviewer o _ rfl]
  rw [route_budget _ (by exact hbudget), if_pos rfl]
  exact ⟨rfl, rfl, rfl, rfl, rfl⟩

lemma run_cycle (o : Oracle) (task : String) (mr : Nat)
    (h : ∀ i, containsSub APPROVAL (o.reviewResponse i) = false) :
    ∀ k, k ≤ mr →
      ((step o)^[2*k+1] (initConfig task mr)).node = Node.code_gen
      ∧ ((step o)^[2*k+1] (initConfig task mr)).genCount = k
      ∧ ((step o)^[2*k+1] (initConfig task mr)).reviewCount = k
      ∧ ((step o)^[2*k+1] (initConfig task mr)).state.revision_number = k
      ∧ ((step o)^[2*k+1] (initConfig task mr)).state.max_revisions = mr := by
  intro k
  induction k with
  | zero => exact fun _ => ⟨rfl, rfl, rfl, rfl, rfl⟩
  | succ k ih =>
    intro hk1
    obtain ⟨hnode, hgen, hrc, hrev, hmr⟩ := ih (Nat.le_of_succ_le hk1)
    have e3 : (step o)^[2*(k+1)+1] (initConfig task mr)
        = step o (step o ((step o)^[2*k+1] (initConfig task mr))) := by
      rw [show 2*(k+1)+1 = 2*k+1+1+1 by omega, Function.iterate_succ_apply',
          Function.iterate_succ_apply']
    have hbudget : ((step o)^[2*k+1] (initConfig task mr)).state.revision_number + 1
        ≤ ((step o)^[2*k+1] (initConfig task mr)).state.max_revisions := by
      rw [hrev, hmr]; exact hk1
    have hno : containsSub APPROVAL
        (o.reviewResponse ((step o)^[2*k+1] (initConfig task mr)).reviewCount) = false := by
      rw [hrc]; exact h k
    obtain ⟨n1, g1, r1, v1, m1⟩ := cycle_step o _ hnode hbudget hno
    rw [e3]
    exact ⟨n1, by rw [g1, hgen], by rw [r1, hrc], by rw [v1, hrev], by rw [m1, hmr]⟩

/-- C1: when no review critique ever contains the approval substring, the
run reaches the Terminated node after exactly `max_revisions + 1` Generate
calls; at that point the revision counter strictly exceeds the budget while
the final critique still lacks the approval marker (termination is by the
budget check), the count of Generate calls never exceeds
`max_revisions + 1` at any step, and the terminal configuration is
absorbing. -/
theorem spec_C1 (o : Oracle) (task : String) (mr : Nat)
    (h : ∀ i, containsSub APPROVAL (o.reviewResponse i) = false) :
    ((step o)^[2*mr+3] (initConfig task mr)).node = Node.terminated
    ∧ ((step o)^[2*mr+3] (initConfig task mr)).genCount = mr + 1
    ∧ ((step o)^[2*mr+3] (initConfig task mr)).state.max_revisions
        < ((step o)^[2*mr+3] (initConfig task mr)).state.revision_number
    ∧ containsSub APPROVAL ((step o)^[2*mr+3] (initConfig task mr)).state.critique = false
    ∧ (∀ n, ((step o)^[n] (initConfig task mr)).genCount ≤ mr + 1)
    ∧ (∀ m, (step o)^[2*mr+3+m] (initConfig task mr)
        = (step o)^[2*mr+3] (initConfig task mr)) := by
  obtain ⟨hnode, hgen, hrc, hrev, hmr⟩ := run_cycle o task mr h mr (Nat.le_refl mr)
  have e3 : (step o)^[2*mr+3] (initConfig task mr)
      = step o (step o ((step o)^[2*mr+1] (initConfig task mr))) := by
    rw [show 2*mr+3 = 2*mr+1+1+1 by omega, Function.iterate_succ_apply',
        Function.iterate_succ_apply']
  have hbudget : ((step o)^[2*mr+1] (initConfig task mr)).state.max_revisions
      < ((step o)^[2*mr+1] (initConfig task mr)).state.revision_number + 1 := by
    rw [hrev, hmr]; omega
  obtain ⟨n1, g1, v1, m1, cr1⟩ := final_step o _ hnode hbudget
  have hterm : ((step o)^[2*mr+3] (initConfig task mr)).node = Node.terminated := by
    rw [e3]; exact n1
  have hgen3 : ((step o)^[2*mr+3] (initConfig task mr)).genCount = mr + 1 := by
    rw [e3, g1, hgen]
  have habs : ∀ m, (step o)^[2*mr+3+m] (initConfig task mr)
      = (step o)^[2*mr+3] (initConfig task mr) := by
    intro m
    induction m with
    | zero => rfl
    | succ m ihm =>
      rw [show 2*mr+3+(m+1) = (2*mr+3+m)+1 by omega, Function.iterate_succ_apply', ihm,
          step_of_terminated o _ hterm]
  refine ⟨hterm, hgen3, ?_, ?_, ?_, habs⟩
  · rw [e3, v1, m1, hrev, hmr]; omega
  · rw [e3, cr1, hrc]; exact h mr
  · intro n
    rcases Nat.le_total n (2*mr+3) with hle | hge
    · have hmono := genCount_iterate_mono o (initConfig task mr) n (2*mr+3) hle
      omega
    · obtain ⟨m, rfl⟩ := Nat.exists_eq_add_of_le hge
      rw [habs m, hgen3]

def oracleC1 : Oracle :=
  { structuredQueries := { queries := ["Terraform S3 guide", "AWS S3 docs", "Terraform tagging"] }
    search := fun _ _ => ["doc snippet"]
    genResponse := fun _ => "```hcl\nresource aws_s3_bucket b\n```"
    reviewResponse := fun _ => "Add tags to all resources." }

theorem spec_C1_witness :
    (∀ i, containsSub APPROVAL (oracleC1.reviewResponse i) = false)
    ∧ ((step oracleC1)^[9] (initConfig "Create an S3 bucket" 3)).node = Node.terminated
    ∧ ((step oracleC1)^[9] (initConfig "Create an S3 bucket" 3)).genCount = 4 := by
  have hno : containsSub APPROVAL "Add tags to all resources." = false := by decide
  exact ⟨fun i => hno,
    (spec_C1 oracleC1 "Create an S3 bucket" 3 (fun i => hno)).1,
    (spec_C1 oracleC1 "Create an S3 bucket" 3 (fun i => hno)).2.1⟩
